import Mathlib

/-!
Verification of the ziba e-cash core against its specification.

The development is a shallow embedding of the Go sources:
  core (build.sh bundle)  : scheme parameters, Bank/Client identity,
                            coin construction, coin verification, Elgamal
                            payment signature (package core);
  core/common.go          : truncated profile hashes;
  network/types.go        : Bank-side Withdrawal and Deposit handlers;
  store/store_test.go 2nd half (bank store) and store/user.go (client store):
                            WriteBank / WriteClient idempotence and the
                            client wallet Coin table with localBalance.

Go arbitrary-precision integers (math/big.Int) are modelled as Nat (all the
values the protocol manipulates are non-negative); the one place the Go code
can produce a negative intermediate value (SignCoin) goes through Int with
Euclidean mod, exactly as big.Int.Mod does.  External primitives that are not
part of this repository (crypto/sha256, big.Int.Bytes, time.Time.MarshalBinary
and time.Time.AddDate) are abstracted as the fields of a CryptoEnv record:
every theorem is quantified over the environment, so the statements hold in
particular for the real primitives.  Randomness (rand.Int samples) is passed
in explicitly; the side conditions the Go sampling loops guarantee (existence
of the modular inverses) appear as hypotheses.
-/

namespace Ziba

/-- Big-endian integer reading of a byte list, as big.Int.SetBytes does. -/
def beNat (bs : List Nat) : Nat :=
  bs.foldl (fun a b => a * 256 + b) 0

/-- Fuel-driven helper for natBitLen (the fuel makes it kernel-reducible). -/
def natBitLenAux : Nat → Nat → Nat
  | 0, _ => 0
  | fuel + 1, n => if n = 0 then 0 else natBitLenAux fuel (n / 2) + 1

/-- Number of bits in the binary representation, as big.Int.BitLen:
natBitLen 0 = 0 and natBitLen n = floor(log2 n) + 1 for n > 0. -/
def natBitLen (n : Nat) : Nat := natBitLenAux n n

/-- Fuel-driven helper for natBytes. -/
def natBytesAux : Nat → Nat → List Nat
  | 0, _ => []
  | fuel + 1, n => if n = 0 then [] else natBytesAux fuel (n / 256) ++ [n % 256]

/-- Minimal big-endian byte encoding of a Nat, as big.Int.Bytes (empty for 0).
Used only to build concrete environments for test inputs. -/
def natBytes (n : Nat) : List Nat := natBytesAux n n

/-- The primitives the core calls but does not implement itself:
  shaBytes     crypto/sha256.Sum256 digest (a byte list);
  bytesOf      big.Int.Bytes minimal big-endian encoding;
  marshalTime  time.Time.MarshalBinary (time instants are modelled as Nat);
  addDate      time.Time.AddDate years months days.
All results the theorems state hold for every choice of these functions, in
particular for the real ones. -/
structure CryptoEnv where
  shaBytes : List Nat → List Nat
  bytesOf : Nat → List Nat
  marshalTime : Nat → List Nat
  addDate : Nat → Nat → Nat → Nat → Nat

/-- sha256.Sum256 followed by big.Int.SetBytes: the digest read as an integer. -/
def shaNat (env : CryptoEnv) (bs : List Nat) : Nat :=
  beNat (env.shaBytes bs)

/-- SchemeParams (core): Sophie-Germain prime Q, safe prime P = 2Q+1,
generator G. -/
structure SchemeParams where
  Q : Nat
  P : Nat
  G : Nat
  deriving DecidableEq

/-- RsaKey (core): primes P, Q, modulus N, private exponent D, public
exponent E. -/
structure RsaKey where
  P : Nat
  Q : Nat
  N : Nat
  D : Nat
  E : Nat
  deriving DecidableEq

/-- Bank (core): scheme, RSA key, private identity x (Priv), public identity
z = g^x mod p (Pub). -/
structure Bank where
  Scheme : SchemeParams
  Key : RsaKey
  Priv : Nat
  Pub : Nat
  deriving DecidableEq

/-- BankProfile (core): the public projection of a Bank. -/
structure BankProfile where
  Scheme : SchemeParams
  Pub : Nat
  N : Nat
  E : Nat
  deriving DecidableEq

/-- Client (core): bank profile, own RSA key, trade identifier, private
identity r_m (Priv), public identity m (Pub), credential v and contract R
(both zero until Account Generation fills them in). -/
structure Client where
  Bank : BankProfile
  Key : RsaKey
  TradeId : Nat
  Priv : Nat
  Pub : Nat
  Credential : Nat
  Contract : Nat
  deriving DecidableEq

/-- ClientProfile (core): the public projection of a Client. -/
structure ClientProfile where
  PrivStamp : Nat
  IdentityHash : Nat
  TradeId : Nat
  Pub : Nat
  N : Nat
  E : Nat
  deriving DecidableEq

/-- ClientInfo (core): the Bank-side record for a registered client. -/
structure ClientInfo where
  Profile : ClientProfile
  K : Nat
  S : Nat
  Credential : Nat
  Contract : Nat
  deriving DecidableEq

/-- CoinRandom (core): the per-coin random numbers. -/
structure CoinRandom where
  E : Nat
  L : Nat
  LInv : Nat
  Beta1 : Nat
  Beta1Inv : Nat
  Beta2 : Nat
  Y : Nat
  YInv : Nat
  deriving DecidableEq

/-- CoinElgamal (core): Elgamal private key w (Priv), public key alpha (Pub),
first component u (First), second component gamma (Second) and message d
(Msg).  Second and Msg are nil in Go until Payment; nil reads as 0 here. -/
structure CoinElgamal where
  Priv : Nat
  Pub : Nat
  First : Nat
  Second : Nat
  Msg : Nat
  deriving DecidableEq

/-- CoinParams (core).  A1, C1, Expiration, A2 and R are zero until the
withdrawal response is processed. -/
structure CoinParams where
  A : Nat
  ALower : Nat
  C : Nat
  A1 : Nat
  C1 : Nat
  Expiration : Nat
  A2 : Nat
  R : Nat
  deriving DecidableEq

/-- Coin (core). -/
structure Coin where
  Random : CoinRandom
  Elgamal : CoinElgamal
  Params : CoinParams
  deriving DecidableEq

/-- CoinProfile (core): the publicly disclosable subset of a coin. -/
structure CoinProfile where
  Pub : Nat
  First : Nat
  A : Nat
  R : Nat
  A2 : Nat
  Expiration : Nat
  Second : Nat
  Msg : Nat
  deriving DecidableEq

/-- The only error Bank.NewClient can report. -/
inductive ZibaError where
  | identityMismatch
  deriving DecidableEq

/-- concatenateBigInts (core): (first || second) as an integer, that is
first shifted left by BitLen(second) bits, plus second. -/
def concatenateBigInts (first second : Nat) : Nat :=
  first * 2 ^ natBitLen second + second

/-- Bank.Profile (core). -/
def Bank.ProfileOf (bank : Bank) : BankProfile :=
  { Scheme := bank.Scheme
    Pub := bank.Pub
    N := bank.Key.N
    E := bank.Key.E }

/-- Client.Profile (core): privStamp = g^Priv mod p and
identityHash = SHA256(Pub.Bytes ++ privStamp.Bytes). -/
def Client.ProfileOf (env : CryptoEnv) (client : Client) : ClientProfile :=
  let privStamp := client.Bank.Scheme.G ^ client.Priv % client.Bank.Scheme.P
  let identityHash := shaNat env (env.bytesOf client.Pub ++ env.bytesOf privStamp)
  { PrivStamp := privStamp
    IdentityHash := identityHash
    TradeId := client.TradeId
    Pub := client.Pub
    N := client.Key.N
    E := client.Key.E }

/-- Bank.NewClient (core).  The randomizer k is the rand.Int sample.  The
identity check recomputes SHA256(Pub.Bytes ++ PrivStamp.Bytes) and rejects
with ErrIdentityMismatch on mismatch; otherwise
s = concatenateBigInts(Pub, k) mod p, credential v = g^s mod p and
contract R = v^Priv mod p. -/
def Bank.NewClient (env : CryptoEnv) (bank : Bank) (profile : ClientProfile)
    (k : Nat) : Except ZibaError ClientInfo :=
  let computedIdentityHash :=
    shaNat env (env.bytesOf profile.Pub ++ env.bytesOf profile.PrivStamp)
  if profile.IdentityHash ≠ computedIdentityHash then
    .error .identityMismatch
  else
    let s := concatenateBigInts profile.Pub k % bank.Scheme.P
    let credential := bank.Scheme.G ^ s % bank.Scheme.P
    let contract := credential ^ bank.Priv % bank.Scheme.P
    .ok { Profile := profile
          K := k
          S := s
          Credential := credential
          Contract := contract }

/-- Coin.elgamal (core): Elgamal private key w = (Contract || E) mod p,
public key alpha = g^w mod p, first component u = g^Y mod p. -/
def Coin.elgamalOf (client : Client) (rnd : CoinRandom) : CoinElgamal :=
  let priv := concatenateBigInts client.Contract rnd.E % client.Bank.Scheme.P
  let pub := client.Bank.Scheme.G ^ priv % client.Bank.Scheme.P
  let first := client.Bank.Scheme.G ^ rnd.Y % client.Bank.Scheme.P
  { Priv := priv
    Pub := pub
    First := first
    Second := 0
    Msg := 0 }

/-- Coin.params (core): blinded credential A = v^Beta1 * g^Beta2 mod p,
blind-signature envelope a = A * L^e mod n, digest hash1 of
(First.Bytes ++ Pub.Bytes ++ A.Bytes), and C = Beta1Inv * hash1 mod q. -/
def Coin.paramsOf (env : CryptoEnv) (client : Client) (rnd : CoinRandom)
    (elg : CoinElgamal) : CoinParams :=
  let A := (client.Credential ^ rnd.Beta1 % client.Bank.Scheme.P) *
      (client.Bank.Scheme.G ^ rnd.Beta2 % client.Bank.Scheme.P) %
      client.Bank.Scheme.P
  let a := A * (rnd.L ^ client.Bank.E % client.Bank.N) % client.Bank.N
  let hash1 :=
    shaNat env (env.bytesOf elg.First ++ env.bytesOf elg.Pub ++ env.bytesOf A)
  let C := rnd.Beta1Inv * hash1 % client.Bank.Scheme.Q
  { A := A
    ALower := a
    C := C
    A1 := 0
    C1 := 0
    Expiration := 0
    A2 := 0
    R := 0 }

/-- Client.NewCoinRequest (core): fill Random (the given samples), Elgamal
and Params of a fresh coin. -/
def Client.NewCoinRequest (env : CryptoEnv) (client : Client)
    (rnd : CoinRandom) : Coin :=
  let elg := Coin.elgamalOf client rnd
  { Random := rnd
    Elgamal := elg
    Params := Coin.paramsOf env client rnd elg }

/-- Bank.NewCoinResponse (core): expiration = now.AddDate(0, 1, 1),
hash of MarshalBinary(expiration), A1 = (a * hash)^D mod n and
C1 = (C * Priv + S) mod q. -/
def Bank.NewCoinResponse (env : CryptoEnv) (bank : Bank) (client : ClientInfo)
    (ALower : Nat) (C : Nat) (now : Nat) : Nat × Nat × Nat :=
  let expiration := env.addDate now 0 1 1
  let hash := shaNat env (env.marshalTime expiration)
  let A1 := (ALower * hash) ^ bank.Key.D % bank.Key.N
  let C1 := (C * bank.Priv + client.S) % bank.Scheme.Q
  (expiration, A1, C1)

/-- Client.FinishCoin (core): A2 = LInv * A1 mod n and
R = (Beta1 * C1 + Beta2) mod q; stores A1, C1, Expiration, A2, R. -/
def Client.FinishCoin (client : Client) (coin : Coin) (expiration A1 C1 : Nat) :
    Coin :=
  let A2 := coin.Random.LInv * A1 % client.Bank.N
  let R := (coin.Random.Beta1 * C1 + coin.Random.Beta2) % client.Bank.Scheme.Q
  { coin with Params :=
      { coin.Params with A1 := A1, C1 := C1, Expiration := expiration,
                         A2 := A2, R := R } }

/-- Coin.Profile (core). -/
def Coin.ProfileOf (coin : Coin) : CoinProfile :=
  { Pub := coin.Elgamal.Pub
    First := coin.Elgamal.First
    A := coin.Params.A
    R := coin.Params.R
    A2 := coin.Params.A2
    Expiration := coin.Params.Expiration
    Second := coin.Elgamal.Second
    Msg := coin.Elgamal.Msg }

/-- CoinProfile.VerifyProperties (core): first property
A * hash_t mod n = A2^e mod n with hash_t the digest of
MarshalBinary(Expiration); second property
g^R mod p = A * z^hash_1 mod p with hash_1 the digest of
(First.Bytes ++ Pub.Bytes ++ A.Bytes). -/
def CoinProfile.VerifyProperties (env : CryptoEnv) (coin : CoinProfile)
    (bank : BankProfile) : Bool :=
  let hasht := shaNat env (env.marshalTime coin.Expiration)
  let left1 := coin.A * hasht % bank.N
  let right1 := coin.A2 ^ bank.E % bank.N
  if left1 = right1 then
    let left2 := bank.Scheme.G ^ coin.R % bank.Scheme.P
    let hash1 :=
      shaNat env (env.bytesOf coin.First ++ env.bytesOf coin.Pub ++
        env.bytesOf coin.A)
    let right2 := coin.A * (bank.Pub ^ hash1 % bank.Scheme.P) % bank.Scheme.P
    decide (left2 = right2)
  else
    false

/-- CoinProfile.Stamp (core): the Elgamal message d is the digest of
(Pub.Bytes ++ First.Bytes ++ TradeId.Bytes ++ MarshalBinary(now)); it is
stored in the profile's Msg field and returned.  The bank argument is unused
by the Go code as well. -/
def CoinProfile.StampOf (env : CryptoEnv) (coin : CoinProfile)
    (_bank : BankProfile) (client : ClientProfile) (now : Nat) :
    Nat × CoinProfile :=
  let msg := shaNat env (env.bytesOf coin.Pub ++ env.bytesOf coin.First ++
    env.bytesOf client.TradeId ++ env.marshalTime now)
  (msg, { coin with Msg := msg })

/-- Client.SignCoin (core): gamma = (msg - Priv * First) * YInv mod (p - 1),
computed with big.Int's Euclidean Mod (the difference may be negative);
stores Msg and Second on the coin and returns gamma. -/
def Client.SignCoin (client : Client) (coin : Coin) (msg : Nat) : Nat × Coin :=
  let pMinus1 : Int := (client.Bank.Scheme.P : Int) - 1
  let second : Int :=
    (((msg : Int) - (coin.Elgamal.Priv : Int) * (coin.Elgamal.First : Int)) *
      (coin.Random.YInv : Int)) % pMinus1
  let s := second.toNat
  (s, { coin with Elgamal := { coin.Elgamal with Msg := msg, Second := s } })

/-- CoinProfile.VerifyElgamal (core): stores second on the profile and checks
alpha^u * u^gamma mod p = g^d mod p. -/
def CoinProfile.VerifyElgamal (coin : CoinProfile) (bank : BankProfile)
    (second : Nat) : Bool :=
  let c := { coin with Second := second }
  let p := bank.Scheme.P
  let left := (c.Pub ^ c.First % p) * (c.First ^ c.Second % p) % p
  let right := bank.Scheme.G ^ c.Msg % p
  decide (left = right)

/-- Truncation used by the profile hashes (core/common.go): the first eight
digest bytes are combined little-endian into an int64, which is then narrowed
to uint32 (keeping the low 32 bits, that is the first four bytes). -/
def truncate32 (bs : List Nat) : Nat :=
  (bs.getD 0 0 + bs.getD 1 0 * 2 ^ 8 + bs.getD 2 0 * 2 ^ 16 +
   bs.getD 3 0 * 2 ^ 24 + bs.getD 4 0 * 2 ^ 32 + bs.getD 5 0 * 2 ^ 40 +
   bs.getD 6 0 * 2 ^ 48 + bs.getD 7 0 * 2 ^ 56) % 2 ^ 32

/-- CoinProfile.Hash (core/common.go): truncated SHA-256 over
Pub, First, A, R, A2 bytes and the marshalled Expiration. -/
def CoinProfile.HashOf (env : CryptoEnv) (coin : CoinProfile) : Nat :=
  truncate32 (env.shaBytes
    (env.bytesOf coin.Pub ++ env.bytesOf coin.First ++ env.bytesOf coin.A ++
     env.bytesOf coin.R ++ env.bytesOf coin.A2 ++
     env.marshalTime coin.Expiration))

/-- ClientProfile.Hash (core/common.go): truncated SHA-256 over
PrivStamp, IdentityHash, TradeId, Pub, N, E bytes. -/
def ClientProfile.HashOf (env : CryptoEnv) (client : ClientProfile) : Nat :=
  truncate32 (env.shaBytes
    (env.bytesOf client.PrivStamp ++ env.bytesOf client.IdentityHash ++
     env.bytesOf client.TradeId ++ env.bytesOf client.Pub ++
     env.bytesOf client.N ++ env.bytesOf client.E))

/-- Operation_Type (store). -/
inductive OperType where
  | withdrawal
  | payment
  | deposit
  | exchange
  deriving DecidableEq

/-- A row of the Bank's CoinProfile table (store, bank side): the coin hash
key, the stored profile, the operation and the depositing client's hash. -/
structure CoinRow where
  hash : Nat
  profile : CoinProfile
  oper : OperType
  client : Nat
  deriving DecidableEq

/-- The Bank's persistent tables the Withdrawal and Deposit handlers touch:
ClientInfo rows keyed by the client profile hash (carrying the stored info
and the balance column) and CoinProfile rows keyed by the coin hash. -/
structure BankDB where
  clients : List (Nat × ClientInfo × Int)
  coins : List CoinRow
  deriving DecidableEq

/-- UPDATE ClientInfo SET balance = ? WHERE hash = ? (store, bank side). -/
def BankDB.updateBalance (db : BankDB) (hash : Nat) (balance : Int) : BankDB :=
  let rows := db.clients.map fun r =>
    if r.1 = hash then (r.1, r.2.1, balance) else r
  { db with clients := rows }

/-- How a Bank-side handler goroutine ends.  fatal is a log.Fatalf call: it
runs os.Exit(1), so the whole Bank process terminates and nothing is sent.
silentClose is a plain return after a log.Print: the connection closes with
no response message. -/
inductive WithdrawResult where
  | fatal
  | silentClose
  | response (expiration A1 C1 : Nat)
  deriving DecidableEq

/-- WithdrawalServer.handleClient (network/types.go), after the two messages
have been decoded: look up ClientInfo by the profile hash (log.Fatalf if the
client is unknown); read the balance; if it is < 1 log Insufficient funds and
return without responding; otherwise decrement the balance, compute
Bank.NewCoinResponse and send it. -/
def withdrawalHandle (env : CryptoEnv) (bank : Bank) (db : BankDB)
    (client : ClientProfile) (ALower C : Nat) (now : Nat) :
    WithdrawResult × BankDB :=
  let chash := ClientProfile.HashOf env client
  match db.clients.find? (fun r => r.1 = chash) with
  | none => (.fatal, db)
  | some (_, info, balance) =>
    if balance < 1 then
      (.silentClose, db)
    else
      let db1 := db.updateBalance chash (balance - 1)
      let r := Bank.NewCoinResponse env bank info ALower C now
      (.response r.1 r.2.1 r.2.2, db1)

/-- How the Deposit handler goroutine ends: fatal is a log.Fatalf call
(os.Exit(1), the Bank process terminates, nothing is sent), accept means the
boolean true was encoded back to the client. -/
inductive DepositResult where
  | fatal
  | accept
  deriving DecidableEq

/-- DepositServer.handleClient (network/types.go), after the two messages
have been decoded: look up ClientInfo (log.Fatalf if unknown); verify the
coin's properties (log.Fatalf if invalid); ReadCoinProfile - which is a pure
lookup whose only acted-on outcome is an unexpected database error, so an
already-present coin falls through it; WriteCoinProfile, which re-checks the
hash and returns ErrExistingCoin when the coin is already stored, upon which
the handler calls log.Fatalf; otherwise the row is inserted with
operation=Deposit, the balance is incremented and accept=true is sent. -/
def depositHandle (env : CryptoEnv) (bank : Bank) (db : BankDB)
    (client : ClientProfile) (coin : CoinProfile) : DepositResult × BankDB :=
  let chash := ClientProfile.HashOf env client
  match db.clients.find? (fun r => r.1 = chash) with
  | none => (.fatal, db)
  | some (_, _, balance) =>
    if CoinProfile.VerifyProperties env coin (Bank.ProfileOf bank) then
      let khash := CoinProfile.HashOf env coin
      if db.coins.any (fun r => r.hash = khash) then
        (.fatal, db)
      else
        let row : CoinRow :=
          { hash := khash, profile := coin, oper := .deposit, client := chash }
        let db1 := { db with coins := db.coins ++ [row] }
        let db2 := db1.updateBalance chash (balance + 1)
        (.accept, db2)
    else
      (.fatal, db)

/-- A row of the Bank table (store, bank side), keyed by identity. -/
structure BankRow where
  identity : String
  name : String
  bank : Bank
  deriving DecidableEq

/-- BankStore.WriteBank (store): if a row for the store's identity already
exists, log and return with no write; otherwise insert the row. -/
def writeBank (table : List BankRow) (identity name : String) (bank : Bank) :
    List BankRow :=
  if table.any (fun r => r.identity = identity) then
    table
  else
    table ++ [{ identity := identity, name := name, bank := bank }]

/-- A row of the client-side Client table (store/user.go), keyed by the bank
name, with the localBalance and remoteBalance columns. -/
structure ClientRow where
  bankName : String
  client : Client
  localBalance : Int
  remoteBalance : Int
  deriving DecidableEq

/-- ClientStore.WriteClient (store/user.go): if a row for the store's
BankName already exists, log and return with no write; otherwise insert the
row with localBalance 0 and remoteBalance 100. -/
def writeClient (table : List ClientRow) (bankName : String)
    (client : Client) : List ClientRow :=
  if table.any (fun r => r.bankName = bankName) then
    table
  else
    table ++ [{ bankName := bankName, client := client,
                localBalance := 0, remoteBalance := 100 }]

/-- The client wallet state C8 is about: the Coin table (whose hash column is
INTEGER UNIQUE ON CONFLICT IGNORE, so we keep the list of stored hashes) and
the localBalance column of the Client row. -/
structure Wallet where
  coins : List Nat
  localBalance : Int
  deriving DecidableEq

/-- ClientStore.WriteCoin (store/user.go): the INSERT into Coin is ignored on
a hash conflict (no new row), but the UPDATE that adds 1 to localBalance runs
unconditionally, so the balance is incremented either way.  The operation
argument only affects remoteBalance, which this model does not track. -/
def Wallet.writeCoin (w : Wallet) (hash : Nat) : Wallet :=
  if w.coins.contains hash then
    { w with localBalance := w.localBalance + 1 }
  else
    { coins := hash :: w.coins, localBalance := w.localBalance + 1 }

/-- ClientStore.DeleteCoin (store/user.go): DELETE FROM Coin WHERE hash = ?
(a no-op when no row matches) followed unconditionally by the UPDATE that
subtracts 1 from localBalance. -/
def Wallet.deleteCoin (w : Wallet) (hash : Nat) : Wallet :=
  { coins := w.coins.erase hash, localBalance := w.localBalance - 1 }

/-- A committed wallet operation. -/
inductive WalletOp where
  | write (hash : Nat)
  | delete (hash : Nat)
  deriving DecidableEq

/-- Run one wallet operation. -/
def Wallet.applyOp (w : Wallet) : WalletOp → Wallet
  | .write h => w.writeCoin h
  | .delete h => w.deleteCoin h

/-- Run a sequence of wallet operations. -/
def Wallet.applyAll (w : Wallet) : List WalletOp → Wallet
  | [] => w
  | op :: rest => (w.applyOp op).applyAll rest

/-- The operation sequences the protocol actually issues: every WriteCoin
stores a hash not already in the wallet and every DeleteCoin removes a hash
that is present. -/
def Wallet.legalOps (w : Wallet) : List WalletOp → Bool
  | [] => true
  | op :: rest =>
    (match op with
     | .write h => decide (¬ w.coins.contains h = true)
     | .delete h => w.coins.contains h) && (w.applyOp op).legalOps rest

/-!
Arithmetic helper lemmas.
-/

/-- Exponent arithmetic under a mod: (g^a mod p)^b mod p = g^(a*b) mod p. -/
theorem pow_mod_pow (g a b p : Nat) :
    (g ^ a % p) ^ b % p = g ^ (a * b) % p := by
  rw [← Nat.pow_mod, ← pow_mul]

/-- If g^M is congruent to 1 mod p, exponents of g can be compared mod M. -/
theorem pow_congr_of_exponent_congr (g M p : Nat)
    (hone : g ^ M % p = 1 % p) {a b : Nat} (hab : a % M = b % M) :
    g ^ a % p = g ^ b % p := by
  have key : ∀ x : Nat, g ^ x % p = g ^ (x % M) % p := by
    intro x
    conv_lhs => rw [← Nat.div_add_mod x M]
    rw [pow_add, pow_mul, Nat.mul_mod, Nat.pow_mod, hone, ← Nat.pow_mod,
      one_pow, ← Nat.mul_mod, one_mul]
  rw [key a, key b, hab]

/-- Transfer an Int congruence on casts of naturals to a Nat congruence. -/
theorem natMod_of_intMod {a b m : Nat}
    (h : (a : Int) % (m : Int) = (b : Int) % (m : Int)) : a % m = b % m := by
  have h2 : ((a % m : Nat) : Int) = ((b % m : Nat) : Int) := by
    rw [Int.natCast_mod, Int.natCast_mod]; exact h
  exact_mod_cast h2

/-!
Shared concrete test material.  The environment instantiates the abstract
primitives with small executable stand-ins; the scheme uses the safe-prime
pair q = 11, p = 23 and the RSA key n = 3 * 11 = 33, e = 3, d = 7
(e * d = 21 = 1 mod phi(33)).  goodBank uses the generator g = 2, which has
order 11 = q mod 23 (2^11 = 2048 = 1 + 89 * 23); every honest-run hypothesis
of the theorems below is satisfied and witnessed on this material.
-/

/-- A small executable environment instantiating the abstract primitives
(a one-byte digest keeps every exponent the test values produce small). -/
def sampleEnv : CryptoEnv :=
  { shaBytes := fun bs => [(bs.foldl (fun a b => a + b) 0 + bs.length) % 251]
    bytesOf := natBytes
    marshalTime := fun t => natBytes (t + 1)
    addDate := fun t y m d => t + 372 * y + 31 * m + d }

/-- Scheme with q = 11, p = 23 = 2 * 11 + 1, g = 2 (order 11 mod 23). -/
def goodScheme : SchemeParams := { Q := 11, P := 23, G := 2 }

/-- RSA key with n = 33, d = 7, e = 3. -/
def goodKey : RsaKey := { P := 3, Q := 11, N := 33, D := 7, E := 3 }

/-- Bank with private identity 3, public identity 2^3 mod 23 = 8. -/
def goodBank : Bank := { Scheme := goodScheme, Key := goodKey, Priv := 3, Pub := 8 }

/-- The client's own RSA key (only N and E reach its profile). -/
def goodClientKey : RsaKey := { P := 5, Q := 7, N := 35, D := 5, E := 5 }

/-- A registered client of goodBank, after Account Generation stored
credential 16 and contract 2 (the Bank.NewClient outputs for k = 6). -/
def goodClient : Client :=
  { Bank := Bank.ProfileOf goodBank
    Key := goodClientKey
    TradeId := 9
    Priv := 5
    Pub := 4
    Credential := 16
    Contract := 2 }

/-- goodClient's public profile. -/
def goodProfile : ClientProfile := Client.ProfileOf sampleEnv goodClient

/-- The Bank-side record Bank.NewClient builds for goodProfile with k = 6:
s = (4 shifted by bitlen 6) + 6 = 38 = 15 mod 23, v = 2^15 = 16 mod 23,
R = 16^3 = 2 mod 23. -/
def goodInfo : ClientInfo :=
  { Profile := goodProfile, K := 6, S := 15, Credential := 16, Contract := 2 }

/-- Honest per-coin randomness: 2 * 17 = 1 mod 33, 3 * 4 = 1 mod 11,
3 * 15 = 1 mod 22. -/
def goodRnd : CoinRandom :=
  { E := 3, L := 2, LInv := 17, Beta1 := 3, Beta1Inv := 4, Beta2 := 5,
    Y := 3, YInv := 15 }

/-- The honest withdrawal request coin. -/
def goodCoin : Coin := Client.NewCoinRequest sampleEnv goodClient goodRnd

/-- goodBank's withdrawal response for goodCoin, at time 100. -/
def goodResp : Nat × Nat × Nat :=
  Bank.NewCoinResponse sampleEnv goodBank goodInfo goodCoin.Params.ALower
    goodCoin.Params.C 100

/-- The finished honest coin. -/
def goodFin : Coin :=
  Client.FinishCoin goodClient goodCoin goodResp.1 goodResp.2.1 goodResp.2.2

/-- The finished honest coin's profile (Second = Msg = 0: not yet spent). -/
def goodCoinProfile : CoinProfile := Coin.ProfileOf goodFin

/-- goodCoinProfile after a Payment populated Second and Msg. -/
def goodSpentProfile : CoinProfile :=
  { goodCoinProfile with Second := 17, Msg := 29 }

/-- C6: for every ClientProfile accepted by Bank.NewClient, the returned
ClientInfo has s = ((pub shifted left by bitlen k) + k) mod p for the sampled
k, credential v = g^s mod p and contract R = v^x mod p with x the Bank's
private key; and NewClient returns ErrIdentityMismatch exactly when the
recomputed SHA256(pub concat privStamp) differs from the profile's
identityHash. -/
theorem c6_newClient (env : CryptoEnv) (bank : Bank) (profile : ClientProfile)
    (k : Nat) :
    (Bank.NewClient env bank profile k = .error .identityMismatch ↔
      profile.IdentityHash ≠
        shaNat env (env.bytesOf profile.Pub ++ env.bytesOf profile.PrivStamp)) ∧
    (∀ info, Bank.NewClient env bank profile k = .ok info →
      info.K = k ∧
      info.S = (profile.Pub * 2 ^ natBitLen k + k) % bank.Scheme.P ∧
      info.Credential = bank.Scheme.G ^ info.S % bank.Scheme.P ∧
      info.Contract = info.Credential ^ bank.Priv % bank.Scheme.P) := by
  unfold Bank.NewClient
  by_cases h : profile.IdentityHash =
      shaNat env (env.bytesOf profile.Pub ++ env.bytesOf profile.PrivStamp)
  · rw [if_neg (not_not_intro h)]
    constructor
    · constructor
      · intro hc
        exact Except.noConfusion hc
      · intro hne
        exact absurd h hne
    · intro info hinfo
      cases hinfo
      exact ⟨rfl, rfl, rfl, rfl⟩
  · rw [if_pos h]
    constructor
    · exact ⟨fun _ => h, fun _ => rfl⟩
    · intro info hinfo
      exact Except.noConfusion hinfo

/-- Witness for c6_newClient: the concrete accepted registration of
goodProfile with k = 6 satisfies all stated equations, and the concrete
error case triggers exactly on a wrong identityHash. -/
theorem c6_newClient_witness :
    (goodInfo.K = 6 ∧
     goodInfo.S = (goodProfile.Pub * 2 ^ natBitLen 6 + 6) % goodBank.Scheme.P ∧
     goodInfo.Credential = goodBank.Scheme.G ^ goodInfo.S % goodBank.Scheme.P ∧
     goodInfo.Contract =
       goodInfo.Credential ^ goodBank.Priv % goodBank.Scheme.P) ∧
    Bank.NewClient sampleEnv goodBank { goodProfile with IdentityHash := 0 } 6 =
      .error .identityMismatch :=
  ⟨(c6_newClient sampleEnv goodBank goodProfile 6).2 goodInfo rfl,
   (c6_newClient sampleEnv goodBank { goodProfile with IdentityHash := 0 } 6).1.mpr
     (by decide)⟩

/-- C7: for every withdrawal request (a, C), Bank.NewCoinResponse returns the
expiration now.AddDate(0, 1, 1) - one month plus one day from the current
time - together with A1 = (a * hash_t)^d mod n, where hash_t is the digest of
MarshalBinary(expiration) and d the Bank's RSA private exponent, and
C1 = (C * x + s) mod q with x the Bank's private key and s the client's
stored blinded identity. -/
theorem c7_newCoinResponse (env : CryptoEnv) (bank : Bank) (info : ClientInfo)
    (ALower C now : Nat) :
    Bank.NewCoinResponse env bank info ALower C now =
      (env.addDate now 0 1 1,
       (ALower * shaNat env (env.marshalTime (env.addDate now 0 1 1))) ^
         bank.Key.D % bank.Key.N,
       (C * bank.Priv + info.S) % bank.Scheme.Q) := rfl

/-- C9: WriteBank called a second time with the same identity leaves the Bank
table unchanged, and WriteClient called a second time for the same bankName
leaves the Client table unchanged, whatever the second call's arguments. -/
theorem c9_write_idempotent (t : List BankRow) (id n1 n2 : String)
    (b1 b2 : Bank) (c : List ClientRow) (bn : String) (cl1 cl2 : Client) :
    writeBank (writeBank t id n1 b1) id n2 b2 = writeBank t id n1 b1 ∧
    writeClient (writeClient c bn cl1) bn cl2 = writeClient c bn cl1 := by
  constructor
  · unfold writeBank
    by_cases h : (t.any fun r => r.identity = id) = true
    · simp [h]
    · simp [h, List.any_append]
  · unfold writeClient
    by_cases h : (c.any fun r => r.bankName = bn) = true
    · simp [h]
    · simp [h, List.any_append]

/-- C10: CoinProfile.Hash reads only Pub, First, A, R, A2 and Expiration, so
two profiles agreeing on those six fields hash identically even if Second or
Msg differ: spending a coin does not change the Bank's duplicate-detection
key. -/
theorem c10_hash_ignores_payment_fields (env : CryptoEnv)
    (c1 c2 : CoinProfile) (hPub : c1.Pub = c2.Pub)
    (hFirst : c1.First = c2.First) (hA : c1.A = c2.A) (hR : c1.R = c2.R)
    (hA2 : c1.A2 = c2.A2) (hExp : c1.Expiration = c2.Expiration) :
    CoinProfile.HashOf env c1 = CoinProfile.HashOf env c2 := by
  unfold CoinProfile.HashOf
  rw [hPub, hFirst, hA, hR, hA2, hExp]

/-- Witness for c10_hash_ignores_payment_fields: the same honest coin before
and after Payment fills Second and Msg keeps its hash. -/
theorem c10_hash_ignores_payment_fields_witness :
    CoinProfile.HashOf sampleEnv goodCoinProfile =
      CoinProfile.HashOf sampleEnv goodSpentProfile :=
  c10_hash_ignores_payment_fields sampleEnv goodCoinProfile goodSpentProfile
    rfl rfl rfl rfl rfl rfl

/-- C8 as stated is refuted by c8_counterexample below: DeleteCoin always
decrements localBalance, even when no row matches the hash, so deleting from
an empty wallet drives the balance to -1 while the wallet holds no coins. -/
theorem c8_counterexample :
    (Wallet.applyAll { coins := [], localBalance := 0 } [.delete 0]).localBalance
      = -1 ∧
    (Wallet.applyAll { coins := [], localBalance := 0 } [.delete 0]).coins
      = [] := by
  constructor
  · rfl
  · rfl

/-- C8 amended: after any committed sequence of wallet operations in which
every WriteCoin stores a fresh coin hash and every DeleteCoin removes a
stored one - which is what the protocol clients issue - localBalance is
non-negative and equals the number of coin rows in the wallet, provided the
starting wallet already satisfied that equation (the freshly created wallet
does: zero coins, localBalance 0). -/
theorem c8_amended (w : Wallet) (ops : List WalletOp)
    (hbal : w.localBalance = w.coins.length)
    (hleg : w.legalOps ops = true) :
    (w.applyAll ops).localBalance = ((w.applyAll ops).coins.length : Int) ∧
    0 ≤ (w.applyAll ops).localBalance := by
  induction ops generalizing w with
  | nil =>
    refine ⟨hbal, ?_⟩
    rw [Wallet.applyAll, hbal]
    exact Int.natCast_nonneg _
  | cons op rest ih =>
    simp only [Wallet.legalOps, Bool.and_eq_true] at hleg
    obtain ⟨hop, hrest⟩ := hleg
    rw [Wallet.applyAll]
    apply ih _ _ hrest
    cases op with
    | write h =>
      have hnotmem : ¬ w.coins.contains h = true := by
        simpa using hop
      rw [Wallet.applyOp, Wallet.writeCoin, if_neg hnotmem]
      simp [hbal]
    | delete h =>
      have hmem : h ∈ w.coins := by
        have : w.coins.contains h = true := hop
        simpa using this
      rw [Wallet.applyOp, Wallet.deleteCoin]
      have hlen : (w.coins.erase h).length + 1 = w.coins.length :=
        List.length_erase_add_one hmem
      simp only [hbal]
      omega

/-- The Elgamal verification identity, for any exponent w: with u = g^y mod p
and gamma = (msg - w*u) * yInv mod (p-1) (Euclidean mod over the integers),
alpha^u * u^gamma = g^msg mod p, provided g^(p-1) = 1 mod p (Fermat, the
consequence of p prime and p not dividing g that the protocol relies on) and
y * yInv = 1 mod (p-1). -/
theorem elgamal_identity (g p w y yi msg : Nat) (hp2 : 1 < p)
    (hfermat : g ^ (p - 1) % p = 1 % p)
    (hy : y * yi % (p - 1) = 1 % (p - 1)) :
    ((g ^ w % p) ^ (g ^ y % p) % p) *
      ((g ^ y % p) ^ ((((msg : Int) - (w : Int) * ((g ^ y % p : Nat) : Int)) *
        (yi : Int)) % ((p : Int) - 1)).toNat % p) % p = g ^ msg % p := by
  have hMz : ((p - 1 : Nat) : Int) = (p : Int) - 1 := by omega
  have hMpos : (0 : Int) < (p : Int) - 1 := by
    have : (1 : Int) < (p : Int) := by exact_mod_cast hp2
    omega
  set u : Nat := g ^ y % p with hu
  set gamInt : Int :=
    (((msg : Int) - (w : Int) * (u : Int)) * (yi : Int)) % ((p : Int) - 1)
    with hgamInt
  have hnonneg : 0 ≤ gamInt := Int.emod_nonneg _ (by omega)
  have hcast : ((gamInt.toNat : Nat) : Int) = gamInt := Int.toNat_of_nonneg hnonneg
  have hexp : (w * u + y * gamInt.toNat) % (p - 1) = msg % (p - 1) := by
    apply natMod_of_intMod
    have step1 : gamInt ≡ ((msg : Int) - w * u) * yi [ZMOD (p : Int) - 1] :=
      Int.mod_modEq _ _
    have hyInt : (y : Int) * yi ≡ 1 [ZMOD (p : Int) - 1] := by
      have h4 := Int.natCast_modEq_iff.mpr hy
      push_cast at h4
      rwa [hMz] at h4
    have step2 : (y : Int) * gamInt ≡ (msg : Int) - w * u
        [ZMOD (p : Int) - 1] := by
      calc (y : Int) * gamInt
          ≡ (y : Int) * (((msg : Int) - w * u) * yi) [ZMOD (p : Int) - 1] :=
            step1.mul_left _
        _ = ((y : Int) * yi) * ((msg : Int) - w * u) := by ring
        _ ≡ 1 * ((msg : Int) - w * u) [ZMOD (p : Int) - 1] :=
            hyInt.mul_right _
        _ = (msg : Int) - w * u := by ring
    have hfinal : (w : Int) * u + y * gamInt ≡ (msg : Int)
        [ZMOD (p : Int) - 1] := by
      calc (w : Int) * u + y * gamInt
          ≡ (w : Int) * u + ((msg : Int) - w * u) [ZMOD (p : Int) - 1] :=
            step2.add_left _
        _ = (msg : Int) := by ring
    unfold Int.ModEq at hfinal
    push_cast
    rw [hcast, hMz]
    exact hfinal
  rw [pow_mod_pow, pow_mod_pow, ← Nat.mul_mod, ← pow_add]
  exact pow_congr_of_exponent_congr g (p - 1) p hfermat hexp

/-- The RSA blind-signature chain of Withdrawal: with
a = A * (l^e mod n) mod n (the blinded envelope),
A1 = (a * h)^d mod n (the Bank's blind signature) and
A2 = lInv * A1 mod n (the unblinded signature), the first coin property
A2^e = A * h mod n holds whenever l * lInv = 1 mod n and the RSA key
satisfies m^(d*e) = m mod n for every m. -/
theorem rsa_blind_unblind (n e d A l lInv h : Nat)
    (hl : l * lInv % n = 1 % n)
    (hrsa : ∀ m : Nat, m ^ (d * e) % n = m % n) :
    (lInv * ((A * (l ^ e % n) % n * h) ^ d % n) % n) ^ e % n = A * h % n := by
  have henv : A * (l ^ e % n) % n ≡ A * l ^ e [MOD n] := by
    calc A * (l ^ e % n) % n
        ≡ A * (l ^ e % n) [MOD n] := Nat.mod_modEq _ _
      _ ≡ A * l ^ e [MOD n] := Nat.ModEq.mul_left A (Nat.mod_modEq _ _)
  have hA2 : (lInv * ((A * (l ^ e % n) % n * h) ^ d % n) % n) ^ e
      ≡ (lInv * (A * (l ^ e % n) % n * h) ^ d) ^ e [MOD n] := by
    apply Nat.ModEq.pow
    calc lInv * ((A * (l ^ e % n) % n * h) ^ d % n) % n
        ≡ lInv * ((A * (l ^ e % n) % n * h) ^ d % n) [MOD n] :=
          Nat.mod_modEq _ _
      _ ≡ lInv * (A * (l ^ e % n) % n * h) ^ d [MOD n] :=
          Nat.ModEq.mul_left _ (Nat.mod_modEq _ _)
  have key : (lInv * (A * (l ^ e % n) % n * h) ^ d) ^ e ≡ A * h [MOD n] := by
    have e1 : (lInv * (A * (l ^ e % n) % n * h) ^ d) ^ e =
        lInv ^ e * (A * (l ^ e % n) % n * h) ^ (d * e) := by
      rw [mul_pow, ← pow_mul]
    rw [e1]
    calc lInv ^ e * (A * (l ^ e % n) % n * h) ^ (d * e)
        ≡ lInv ^ e * (A * (l ^ e % n) % n * h) [MOD n] :=
          Nat.ModEq.mul_left _ (hrsa _)
      _ ≡ lInv ^ e * (A * l ^ e * h) [MOD n] :=
          Nat.ModEq.mul_left _ (Nat.ModEq.mul_right h henv)
      _ = (l * lInv) ^ e * (A * h) := by ring
      _ ≡ 1 ^ e * (A * h) [MOD n] :=
          Nat.ModEq.mul_right _ (Nat.ModEq.pow e hl)
      _ = A * h := by ring
  exact hA2.trans key

/-- The credential-signature chain of Withdrawal: with
C = beta1Inv * h1 mod q, C1 = (C * x + s) mod q and
R = (beta1 * C1 + beta2) mod q, the second coin property
g^R = (g^s)^beta1 * g^beta2 * (g^x)^h1 mod p holds whenever
beta1 * beta1Inv = 1 mod q and g^q = 1 mod p, i.e. when the generator lies
in the subgroup of order q. -/
theorem credential_signature_chain (g p q x s beta1 beta1Inv beta2 h1 : Nat)
    (hgq : g ^ q % p = 1 % p)
    (hb1 : beta1 * beta1Inv % q = 1 % q) :
    g ^ ((beta1 * (((beta1Inv * h1 % q) * x + s) % q) + beta2) % q) % p
      = ((g ^ s % p) ^ beta1 % p) * (g ^ beta2 % p) % p *
          ((g ^ x % p) ^ h1 % p) % p := by
  have hr : ((g ^ s % p) ^ beta1 % p) * (g ^ beta2 % p) % p *
      ((g ^ x % p) ^ h1 % p) % p = g ^ (s * beta1 + beta2 + x * h1) % p := by
    rw [pow_mod_pow, pow_mod_pow, pow_add, pow_add]
    conv_rhs => rw [Nat.mul_mod, Nat.mul_mod (g ^ (s * beta1)) (g ^ beta2) p]
  have hcong : (beta1 * (((beta1Inv * h1 % q) * x + s) % q) + beta2) % q
      ≡ s * beta1 + beta2 + x * h1 [MOD q] := by
    calc (beta1 * (((beta1Inv * h1 % q) * x + s) % q) + beta2) % q
        ≡ beta1 * (((beta1Inv * h1 % q) * x + s) % q) + beta2 [MOD q] :=
          Nat.mod_modEq _ _
      _ ≡ beta1 * ((beta1Inv * h1 % q) * x + s) + beta2 [MOD q] :=
          Nat.ModEq.add_right _ (Nat.ModEq.mul_left _ (Nat.mod_modEq _ _))
      _ ≡ beta1 * ((beta1Inv * h1) * x + s) + beta2 [MOD q] := by
          apply Nat.ModEq.add_right
          apply Nat.ModEq.mul_left
          apply Nat.ModEq.add_right
          apply Nat.ModEq.mul_right
          exact Nat.mod_modEq _ _
      _ = (beta1 * beta1Inv) * (h1 * x) + (s * beta1 + beta2) := by ring
      _ ≡ 1 * (h1 * x) + (s * beta1 + beta2) [MOD q] :=
          Nat.ModEq.add_right _ (Nat.ModEq.mul_right _ hb1)
      _ = s * beta1 + beta2 + x * h1 := by ring
  rw [hr]
  exact pow_congr_of_exponent_congr g q p hgq hcong

/-- C1 amended: for every coin produced by an honest run of the Withdrawal
protocol - the Client, registered through Bank.NewClient and holding the
issued credential, builds the request with NewCoinRequest, the Bank answers
with NewCoinResponse over that request's ALower and C, and the Client
completes the coin with FinishCoin - VerifyProperties of the coin's profile
against the Bank's profile returns true, PROVIDED the scheme generator lies
in the subgroup of order q (hgq : g^q = 1 mod p).  Without that extra
hypothesis the claim is false: SchemeParams.New picks g as a random prime
with no subgroup test, and c1_counterexample below exhibits an honest run
with a generator of order 2q that VerifyProperties rejects.  The remaining
hypotheses are the honest-run facts: the Bank's public identity is g^x mod p,
the sampled l and beta1 have the inverses the Go sampling loops guarantee,
and the Bank's RSA key satisfies m^(d*e) = m mod n. -/
theorem c1_withdrawal_verifies (env : CryptoEnv) (bank : Bank)
    (pf : ClientProfile) (k : Nat) (info : ClientInfo) (client : Client)
    (rnd : CoinRandom) (now : Nat) (coin : Coin) (resp : Nat × Nat × Nat)
    (fin : Coin)
    (hinfo : Bank.NewClient env bank pf k = .ok info)
    (hcb : client.Bank = Bank.ProfileOf bank)
    (hcred : client.Credential = info.Credential)
    (hz : bank.Pub = bank.Scheme.G ^ bank.Priv % bank.Scheme.P)
    (hgq : bank.Scheme.G ^ bank.Scheme.Q % bank.Scheme.P = 1 % bank.Scheme.P)
    (hl : rnd.L * rnd.LInv % bank.Key.N = 1 % bank.Key.N)
    (hb1 : rnd.Beta1 * rnd.Beta1Inv % bank.Scheme.Q = 1 % bank.Scheme.Q)
    (hrsa : ∀ m : Nat,
      m ^ (bank.Key.D * bank.Key.E) % bank.Key.N = m % bank.Key.N)
    (hcoin : coin = Client.NewCoinRequest env client rnd)
    (hresp : resp = Bank.NewCoinResponse env bank info coin.Params.ALower
      coin.Params.C now)
    (hfin : fin = Client.FinishCoin client coin resp.1 resp.2.1 resp.2.2) :
    CoinProfile.VerifyProperties env (Coin.ProfileOf fin) (Bank.ProfileOf bank)
      = true := by
  subst hcoin hresp hfin
  simp only [Bank.NewClient] at hinfo
  split at hinfo
  · exact Except.noConfusion hinfo
  · injection hinfo with h
    subst h
    simp only [Client.NewCoinRequest, Coin.elgamalOf, Coin.paramsOf,
      Bank.NewCoinResponse, Client.FinishCoin, Coin.ProfileOf,
      CoinProfile.VerifyProperties, Bank.ProfileOf, hcb, hcred]
    rw [hz]
    rw [if_pos ((rsa_blind_unblind bank.Key.N bank.Key.E bank.Key.D _ rnd.L
      rnd.LInv _ hl hrsa).symm), decide_eq_true_eq]
    exact credential_signature_chain bank.Scheme.G bank.Scheme.P
      bank.Scheme.Q bank.Priv _ rnd.Beta1 rnd.Beta1Inv rnd.Beta2 _ hgq hb1

/-- RSA correctness of the shared test key: 7 * 3 = 21 = 1 mod phi(33) = 20,
so m^21 = m mod 33 for every m. -/
theorem rsa33 (m : Nat) : m ^ 21 % 33 = m % 33 := by
  have h : ∀ r, r < 33 → r ^ 21 % 33 = r % 33 := by decide
  rw [Nat.pow_mod]
  have h2 := h (m % 33) (Nat.mod_lt m (by decide))
  rw [h2]
  omega

/-- Witness for c1_withdrawal_verifies: the complete honest run on the shared
test material (where the generator 2 has order 11 = q mod 23) produces a coin
whose profile verifies. -/
theorem c1_withdrawal_verifies_witness :
    CoinProfile.VerifyProperties sampleEnv (Coin.ProfileOf goodFin)
      (Bank.ProfileOf goodBank) = true :=
  c1_withdrawal_verifies sampleEnv goodBank goodProfile 6 goodInfo goodClient
    goodRnd 100 goodCoin goodResp goodFin rfl rfl rfl (by decide) (by decide)
    (by decide) (by decide) (fun m => rsa33 m) rfl rfl rfl

/-- A scheme that SchemeParams.New can legitimately produce: the same primes
q = 11, p = 23, but generator 5 - a prime, as New samples - whose order
mod 23 is 22 = 2q (5^11 = 22 mod 23), not q. -/
def badScheme : SchemeParams := { Q := 11, P := 23, G := 5 }

/-- An honest bank over badScheme: private identity 2,
public identity 5^2 mod 23 = 2. -/
def badBank : Bank := { Scheme := badScheme, Key := goodKey, Priv := 2, Pub := 2 }

/-- An honest registered client of badBank holding the credential 19 and
contract 16 that Bank.NewClient issues for k = 6. -/
def badClient : Client :=
  { Bank := Bank.ProfileOf badBank
    Key := goodClientKey
    TradeId := 9
    Priv := 5
    Pub := 4
    Credential := 19
    Contract := 16 }

/-- badClient's public profile. -/
def badProfile : ClientProfile := Client.ProfileOf sampleEnv badClient

/-- The Bank-side record for badProfile with k = 6: s = 38 mod 23 = 15,
v = 5^15 mod 23 = 19, R = 19^2 mod 23 = 16. -/
def badInfo : ClientInfo :=
  { Profile := badProfile, K := 6, S := 15, Credential := 19, Contract := 16 }

/-- Honest per-coin randomness for the counterexample run; all inverse side
conditions hold (2 * 17 = 1 mod 33, 3 * 4 = 1 mod 11, 3 * 15 = 1 mod 22). -/
def badRnd : CoinRandom :=
  { E := 3, L := 2, LInv := 17, Beta1 := 3, Beta1Inv := 4, Beta2 := 1,
    Y := 3, YInv := 15 }

/-- The honest withdrawal request over badScheme. -/
def badCoin : Coin := Client.NewCoinRequest sampleEnv badClient badRnd

/-- badBank's withdrawal response, at time 100. -/
def badResp : Nat × Nat × Nat :=
  Bank.NewCoinResponse sampleEnv badBank badInfo badCoin.Params.ALower
    badCoin.Params.C 100

/-- The finished coin of the counterexample run. -/
def badFin : Coin :=
  Client.FinishCoin badClient badCoin badResp.1 badResp.2.1 badResp.2.2

/-- C1 counterexample: this honest run - registration accepted by
Bank.NewClient, credentials stored faithfully, honest bank public identity,
all sampled inverses valid - produces a coin that VerifyProperties REJECTS,
because the generator 5 is not in the order-q subgroup (second-to-last
conjunct): the exponent R is reduced mod q while the group only satisfies
g^(2q) = 1, so g^R lands on the wrong element half the time.  The first coin
property (the RSA check) passes; the second fails with
g^R = 20 and A * z^hash1 = 3 mod 23. -/
theorem c1_counterexample :
    Bank.NewClient sampleEnv badBank badProfile 6 = .ok badInfo ∧
    badClient.Bank = Bank.ProfileOf badBank ∧
    badClient.Credential = badInfo.Credential ∧
    badBank.Pub = badBank.Scheme.G ^ badBank.Priv % badBank.Scheme.P ∧
    badRnd.L * badRnd.LInv % badBank.Key.N = 1 % badBank.Key.N ∧
    badRnd.Beta1 * badRnd.Beta1Inv % badBank.Scheme.Q =
      1 % badBank.Scheme.Q ∧
    badRnd.Y * badRnd.YInv % (badBank.Scheme.P - 1) =
      1 % (badBank.Scheme.P - 1) ∧
    badBank.Scheme.G ^ badBank.Scheme.Q % badBank.Scheme.P ≠
      1 % badBank.Scheme.P ∧
    CoinProfile.VerifyProperties sampleEnv (Coin.ProfileOf badFin)
      (Bank.ProfileOf badBank) = false :=
  ⟨rfl, rfl, rfl, by decide, by decide, by decide, by decide, by decide,
   by decide⟩

/-- C2: for every honest Payment - the Merchant computes the challenge msg
with Stamp on the received coin profile, the Spender answers with
second = SignCoin(coin, msg), and the coin's Elgamal part was derived
honestly by Coin.elgamal (priv w = (contract concat e) mod p,
pub alpha = g^w mod p, first u = g^y mod p) with y * yInv = 1 mod (p-1) -
VerifyElgamal(bankProfile, second) on the stamped profile returns true,
i.e. alpha^u * u^gamma = g^d mod p.  The hypothesis hfermat is the Fermat
property g^(p-1) = 1 mod p, the consequence of p prime and p not dividing g
that makes exponent arithmetic mod p-1 sound. -/
theorem c2_payment_elgamal_verifies (env : CryptoEnv) (client : Client)
    (coin : Coin) (merchant : ClientProfile) (now : Nat)
    (hp2 : 1 < client.Bank.Scheme.P)
    (hfermat : client.Bank.Scheme.G ^ (client.Bank.Scheme.P - 1) %
        client.Bank.Scheme.P = 1 % client.Bank.Scheme.P)
    (hy : coin.Random.Y * coin.Random.YInv % (client.Bank.Scheme.P - 1) =
        1 % (client.Bank.Scheme.P - 1))
    (helg : coin.Elgamal = Coin.elgamalOf client coin.Random) :
    CoinProfile.VerifyElgamal
      (CoinProfile.StampOf env (Coin.ProfileOf coin) client.Bank merchant
        now).2
      client.Bank
      (Client.SignCoin client coin
        (CoinProfile.StampOf env (Coin.ProfileOf coin) client.Bank merchant
          now).1).1 = true := by
  have hpub : coin.Elgamal.Pub =
      client.Bank.Scheme.G ^ coin.Elgamal.Priv % client.Bank.Scheme.P := by
    rw [helg]
    rfl
  have hfirst : coin.Elgamal.First =
      client.Bank.Scheme.G ^ coin.Random.Y % client.Bank.Scheme.P := by
    rw [helg]
    rfl
  simp only [CoinProfile.VerifyElgamal, CoinProfile.StampOf, Client.SignCoin,
    Coin.ProfileOf, decide_eq_true_eq]
  rw [hpub, hfirst]
  exact elgamal_identity client.Bank.Scheme.G client.Bank.Scheme.P
    coin.Elgamal.Priv coin.Random.Y coin.Random.YInv _ hp2 hfermat hy

/-- Witness for c2_payment_elgamal_verifies: the honest finished coin of the
shared test material is paid to a merchant at time 200 and the merchant's
Elgamal verification succeeds. -/
theorem c2_payment_elgamal_verifies_witness :
    CoinProfile.VerifyElgamal
      (CoinProfile.StampOf sampleEnv (Coin.ProfileOf goodFin) goodClient.Bank
        goodProfile 200).2
      goodClient.Bank
      (Client.SignCoin goodClient goodFin
        (CoinProfile.StampOf sampleEnv (Coin.ProfileOf goodFin)
          goodClient.Bank goodProfile 200).1).1 = true :=
  c2_payment_elgamal_verifies sampleEnv goodClient goodFin goodProfile 200
    (by decide) (by decide) (by decide) (by decide)

/-- The Bank database with the good client registered at balance 100 and no
coin rows. -/
def goodDB : BankDB :=
  { clients := [(ClientProfile.HashOf sampleEnv goodProfile, goodInfo, 100)]
    coins := [] }

/-- The same database with the good client's balance forced to 0. -/
def poorDB : BankDB :=
  { clients := [(ClientProfile.HashOf sampleEnv goodProfile, goodInfo, 0)]
    coins := [] }

/-- C3: the first deposit of the honest coin is accepted, but submitting the
same coin a second time makes the Deposit handler end in log.Fatalf - the
model's fatal outcome, which is os.Exit(1): the whole Bank process
terminates.  The stored rows are untouched and no acceptance is sent, but
the claim's (and spec section 7's) requirement that the duplicate be a
protocol-level rejection without process termination is violated: the
handler's ReadCoinProfile duplicate check silently falls through when the
coin exists (only the err != nil branch acts), and WriteCoinProfile's
ErrExistingCoin is then routed into log.Fatalf. -/
theorem c3_double_deposit_fatal :
    (depositHandle sampleEnv goodBank goodDB goodProfile goodCoinProfile).1 =
      DepositResult.accept ∧
    depositHandle sampleEnv goodBank
        (depositHandle sampleEnv goodBank goodDB goodProfile
          goodCoinProfile).2
        goodProfile goodCoinProfile =
      (DepositResult.fatal,
       (depositHandle sampleEnv goodBank goodDB goodProfile
         goodCoinProfile).2) :=
  ⟨by decide, by decide⟩

/-- C4: a Withdrawal request from a registered client whose stored balance
is below 1 ends with the handler logging Insufficient funds and returning:
no response message is sent and the database is returned unchanged. -/
theorem c4_insufficient_funds (env : CryptoEnv) (bank : Bank) (db : BankDB)
    (pf : ClientProfile) (ALower C now : Nat)
    (entry : Nat × ClientInfo × Int)
    (hfind : db.clients.find?
      (fun r => r.1 = ClientProfile.HashOf env pf) = some entry)
    (hbal : entry.2.2 < 1) :
    withdrawalHandle env bank db pf ALower C now = (.silentClose, db) := by
  obtain ⟨hh, info, bal⟩ := entry
  dsimp only [withdrawalHandle]
  rw [hfind]
  exact if_pos hbal

/-- Witness for c4_insufficient_funds: the registered client with balance 0
gets no response and the database is unchanged. -/
theorem c4_insufficient_funds_witness :
    withdrawalHandle sampleEnv goodBank poorDB goodProfile 12 10 100 =
      (.silentClose, poorDB) :=
  c4_insufficient_funds sampleEnv goodBank poorDB goodProfile 12 10 100
    (ClientProfile.HashOf sampleEnv goodProfile, goodInfo, 0) (by decide)
    (by decide)

/-- C5 counterexample: the honest finished coin straight from Withdrawal
still has the placeholders msg = 0 and second = 0 - it was never spent - yet
the Deposit handler accepts it: the handler never looks at msg or second. -/
theorem c5_counterexample :
    goodCoinProfile.Msg = 0 ∧ goodCoinProfile.Second = 0 ∧
    (depositHandle sampleEnv goodBank goodDB goodProfile goodCoinProfile).1 =
      DepositResult.accept :=
  ⟨rfl, rfl, by decide⟩

/-- C5 amended: the Deposit handler performs no payment-closure check at
all: it accepts any coin from a registered client that passes
VerifyProperties and whose hash is not yet in the CoinProfile table,
whatever its msg and second fields - including the placeholders
msg = 0 and second = 0. -/
theorem c5_no_payment_closure_check (env : CryptoEnv) (bank : Bank)
    (db : BankDB) (pf : ClientProfile) (coin : CoinProfile)
    (entry : Nat × ClientInfo × Int)
    (hfind : db.clients.find?
      (fun r => r.1 = ClientProfile.HashOf env pf) = some entry)
    (hver : CoinProfile.VerifyProperties env coin (Bank.ProfileOf bank)
      = true)
    (hnew : db.coins.any
      (fun r => r.hash = CoinProfile.HashOf env coin) = false) :
    (depositHandle env bank db pf coin).1 = DepositResult.accept := by
  obtain ⟨hh, info, bal⟩ := entry
  dsimp only [depositHandle]
  rw [hfind, hver, hnew]
  rfl

/-- Witness for c5_no_payment_closure_check: the unspent honest coin
(msg = 0, second = 0) is accepted. -/
theorem c5_no_payment_closure_check_witness :
    (depositHandle sampleEnv goodBank goodDB goodProfile goodCoinProfile).1 =
      DepositResult.accept :=
  c5_no_payment_closure_check sampleEnv goodBank goodDB goodProfile
    goodCoinProfile (ClientProfile.HashOf sampleEnv goodProfile, goodInfo, 100)
    (by decide) (by decide) (by decide)

/-- Witness for c8_amended: a concrete write-write-delete run from the fresh
wallet ends balanced. -/
theorem c8_amended_witness :
    (Wallet.applyAll { coins := [], localBalance := 0 }
        [.write 5, .write 7, .delete 5]).localBalance =
      ((Wallet.applyAll { coins := [], localBalance := 0 }
        [.write 5, .write 7, .delete 5]).coins.length : Int) ∧
    0 ≤ (Wallet.applyAll { coins := [], localBalance := 0 }
        [.write 5, .write 7, .delete 5]).localBalance :=
  c8_amended { coins := [], localBalance := 0 } [.write 5, .write 7, .delete 5]
    (by decide) (by decide)

end Ziba
